import Mathlib

/-!
# Verification of the langchain-couchbase adapter layer

Shallow embedding of `langchain_couchbase` (cache.py, chat_message_histories.py,
utils.py, vectorstores/vectorstores.py) and proofs of the spec's claims about it.

Python values that flow through the adapter are modelled by the `Json` inductive
below.  A Python string is a `Json` node of one of two forms: `jstrRaw s` stands
for a string with text `s` that is not the `json.dumps` of any value, and
`jstrJson j` stands for the string `json.dumps j`; `json.loads` succeeds exactly
on the second form.  Exceptions are modelled explicitly with `Except PErr`.
The Couchbase SDK, the embedding model and the backing store are external
collaborators (spec section 6); they appear as explicit parameters (key-value
maps, per-chunk outcome functions, embedding functions) so that every control
path of the adapter code can be exercised.
-/

/-- Python exceptions that the adapter code raises or catches. -/
inductive PErr where
  /-- `ValueError(msg)` -/
  | valueError (msg : String)
  /-- `ValueError("Failed to insert documents.", result.exceptions)` — the
  two-argument form used by `add_texts`, carrying the failed keys' exceptions. -/
  | insertFailed (msg : String) (excs : List (String × String))
  /-- `pydantic.ValidationError` raised by `Generation(**d)` on invalid kwargs. -/
  | validationError (msg : String)
  /-- `KeyError` from a missing dict key. -/
  | keyError (k : String)
  /-- `couchbase DocumentNotFoundException` from a key-value get. -/
  | docNotFound (k : String)
  /-- `TypeError` (caught by `_loads_generations`). -/
  | typeError (msg : String)
  /-- `json.JSONDecodeError` (caught by `_loads_generations`). -/
  | jsonDecodeError (msg : String)
  deriving DecidableEq, Repr

/-- Python/JSON values.  String values are either `jstrRaw s` (text `s`, not
valid JSON) or `jstrJson j` (the text `json.dumps j`). -/
inductive Json where
  | jnull
  | jbool (b : Bool)
  | jnum (n : Int)
  | jstrRaw (s : String)
  | jstrJson (j : Json)
  | jarr (xs : List Json)
  | jobj (kvs : List (String × Json))

/-- `json.loads` applied to a Python value: succeeds on strings that are valid
JSON, raises `JSONDecodeError` on other strings, `TypeError` on non-strings. -/
def pyJsonLoads : Json → Except PErr Json
  | .jstrJson j => .ok j
  | .jstrRaw _ => .error (.jsonDecodeError "Expecting value")
  | _ => .error (.typeError "the JSON object must be str, bytes or bytearray")

/-- Python `dict` insertion `d[k] = v`: replaces the value in place if the key
is present, otherwise appends. -/
def pyDictInsert (kvs : List (String × Json)) (k : String) (v : Json) :
    List (String × Json) :=
  if kvs.any (fun kv => kv.1 = k) then
    kvs.map (fun kv => if kv.1 = k then (k, v) else kv)
  else
    kvs ++ [(k, v)]

/-- Python `d[k]`: the value, or `KeyError`. -/
def pyDictGet (kvs : List (String × Json)) (k : String) : Except PErr Json :=
  match kvs.lookup k with
  | some v => .ok v
  | none => .error (.keyError k)

/-- Whether `sep` occurs as a contiguous subsequence of `s`. -/
def containsSeq (sep : List Char) : List Char → Bool
  | [] => sep.isEmpty
  | c :: rest => sep.isPrefixOf (c :: rest) || containsSeq sep rest

/-- Substring test on strings, via `containsSeq`. -/
def strContainsSub (s sub : String) : Bool :=
  containsSeq sub.toList s.toList

example : strContainsSub "Bucket db does not exist" "db" = true := by decide
example : strContainsSub "abc" "ac" = false := by decide

/-! ## Generic key-value collection (the Couchbase collection seen as a map)

`collection.get` / `collection.upsert` on a Couchbase collection are modelled
as association-list reads and writes; the store holds one value per key. -/

/-- `collection.upsert(key, value)`: overwrite in place or append. -/
def kvUpsert {α : Type} (store : List (String × α)) (k : String) (v : α) :
    List (String × α) :=
  if store.any (fun kv => kv.1 = k) then
    store.map (fun kv => if kv.1 = k then (k, v) else kv)
  else
    store ++ [(k, v)]

/-- `collection.get(key)` (as a plain read; a miss is `DocumentNotFound`). -/
def kvGet {α : Type} (store : List (String × α)) (k : String) : Option α :=
  store.lookup k

/-! ## cache.py: `_hash`, `_dumps_generations`, `_loads_generations`

`hashlib.md5(...).hexdigest()` is an external library call; it enters the
model as an explicit `hash : String → String` parameter (the adapter only
needs it to be a deterministic function of its input string).

`langchain_core.load.dumps/loads` is the externally supplied generation codec
(spec section 6).  A serialized `Generation` is the `lc`-constructor object
below; `loads` (`revive`) recognizes exactly that shape and returns any other
parsed JSON value unchanged, which `LCVal.other` records.  `Generation` is a
pydantic model; its `text` field must be a string, so `Generation(**d)` raises
a `ValidationError` when `text` is missing or not a string (the
`generation_info` and `type` fields are not modelled). -/

/-- `langchain_core.outputs.Generation`, reduced to its `text` field.  The
field holds a Python string, i.e. a `Json` string node. -/
structure Generation where
  text : Json

/-- A value produced by the langchain `loads` reviver: either a revived
`Generation` or any other JSON value passed through unchanged. -/
inductive LCVal where
  | gen (g : Generation)
  | other (j : Json)

/-- `langchain_core.load.dump.dumps` applied to a `Generation` (before the
outer `json.dumps`): the `lc`-constructor object. -/
def lcDumpGen (g : Generation) : Json :=
  .jobj [("lc", .jnum 1), ("type", .jstrRaw "constructor"),
    ("id", .jarr [.jstrRaw "langchain", .jstrRaw "schema", .jstrRaw "output",
      .jstrRaw "Generation"]),
    ("kwargs", .jobj [("text", g.text)])]

/-- The `Reviver` of `langchain_core.load.load.loads`: revives the serialized
`Generation` shape, returns every other value unchanged. -/
def revive : Json → LCVal
  | .jobj [("lc", .jnum 1), ("type", .jstrRaw "constructor"),
      ("id", .jarr [.jstrRaw "langchain", .jstrRaw "schema", .jstrRaw "output",
        .jstrRaw "Generation"]),
      ("kwargs", .jobj [("text", t)])] => .gen ⟨t⟩
  | j => .other j

/-- Whether a Python value is a string. -/
def isStrNode : Json → Bool
  | .jstrRaw _ => true
  | .jstrJson _ => true
  | _ => false

/-- `Generation(**generation_dict)` of the legacy decode path: `TypeError` if
the argument is not a dict (caught by `_loads_generations`), pydantic
`ValidationError` if `text` is missing or not a string (NOT in the caught
`(json.JSONDecodeError, TypeError)` set). -/
def mkGeneration : Json → Except PErr Generation
  | .jobj kvs =>
    match kvs.lookup "text" with
    | some v =>
      if isStrNode v then .ok ⟨v⟩
      else .error (.validationError "text: Input should be a valid string")
    | none => .error (.validationError "text: Field required")
  | _ => .error (.typeError "argument after ** must be a mapping")

/-- `_dumps_generations`: each generation is independently `dumps`ed to a
string, and the list of strings is `json.dumps`ed into one string. -/
def dumpsGenerations (gens : List Generation) : Json :=
  .jstrJson (.jarr (gens.map (fun g => .jstrJson (lcDumpGen g))))

/-- One step of the current-format decode: `loads(_item_str)` for each item of
the `json.loads`ed list.  A non-string item raises `TypeError`, an unparsable
string raises `JSONDecodeError`; both are caught, which `none` records. -/
def itemsLoad : List Json → Option (List LCVal)
  | [] => some []
  | item :: rest =>
    match pyJsonLoads item with
    | .ok j => (itemsLoad rest).map (fun tl => revive j :: tl)
    | .error _ => none

/-- First decode attempt of `_loads_generations`:
`[loads(_item_str) for _item_str in json.loads(generations_str)]`.
All failure modes on this path are caught `JSONDecodeError`/`TypeError`
(non-JSON input, non-string items, iteration over a non-list yielding
non-string or unparsable elements), which `none` records. -/
def currentParse (p : Json) : Option (List LCVal) :=
  match pyJsonLoads p with
  | .ok (.jarr items) => itemsLoad items
  | _ => none

/-- `mapM mkGeneration`: the legacy list comprehension, stopping at the first
exception as Python does. -/
def mkGenerations : List Json → Except PErr (List Generation)
  | [] => .ok []
  | d :: rest => do
    let g ← mkGeneration d
    let tl ← mkGenerations rest
    .ok (g :: tl)

/-- Legacy decode attempt of `_loads_generations`:
`[Generation(**generation_dict) for generation_dict in json.loads(s)]`.
`JSONDecodeError`/`TypeError` are caught (log and return `None`); a pydantic
`ValidationError` from `Generation(**d)` is not caught and propagates. -/
def legacyParse (p : Json) : Except PErr (Option (List LCVal)) :=
  match pyJsonLoads p with
  | .error _ => .ok none
  | .ok (.jarr items) =>
    match mkGenerations items with
    | .ok gens => .ok (some (gens.map (fun g => .gen g)))
    | .error (.typeError _) => .ok none
    | .error (.jsonDecodeError _) => .ok none
    | .error e => .error e
  | .ok _ => .ok none

/-- `_loads_generations`: current format first, then the legacy fallback. -/
def loadsGenerations (p : Json) : Except PErr (Option (List LCVal)) :=
  match currentParse p with
  | some gens => .ok (some gens)
  | none => legacyParse p

/-! ## cache.py: `CouchbaseCache` -/

/-- `CouchbaseCache._generate_key`: `_hash(prompt + llm_string)`. -/
def generateKey (hash : String → String) (prompt llm : String) : String :=
  hash (prompt ++ llm)

/-- A document in the cache collection: a Python dict. -/
abbrev CacheDoc := List (String × Json)

/-- The cache collection. -/
abbrev CacheStore := List (String × CacheDoc)

/-- `CouchbaseCache.update`: upsert `{prompt, llm, return_val}` under the
hashed key.  (TTL expiry is enforced by the backend, not modelled; the
surrounding try/except only matters when the backend write fails, which the
key-value model's upsert does not.) -/
def updateCache (hash : String → String) (store : CacheStore)
    (prompt llm : String) (gens : List Generation) : CacheStore :=
  kvUpsert store (generateKey hash prompt llm)
    [("prompt", .jstrRaw prompt), ("llm", .jstrRaw llm),
     ("return_val", dumpsGenerations gens)]

/-- The body of `CouchbaseCache.lookup` before its blanket `except`:
`_loads_generations(self._collection.get(key).content_as[dict][RETURN_VAL])`. -/
def lookupCacheBody (hash : String → String) (store : CacheStore)
    (prompt llm : String) : Except PErr (Option (List LCVal)) :=
  match kvGet store (generateKey hash prompt llm) with
  | none => .error (.docNotFound (generateKey hash prompt llm))
  | some doc =>
    match pyDictGet doc "return_val" with
    | .error e => .error e
    | .ok rv => loadsGenerations rv

/-- `CouchbaseCache.lookup`: the body under `except Exception: return None`. -/
def lookupCache (hash : String → String) (store : CacheStore)
    (prompt llm : String) : Option (List LCVal) :=
  match lookupCacheBody hash store prompt llm with
  | .ok v => v
  | .error _ => none

/-! ## Round-trip lemmas for the generation codec -/

theorem revive_lcDumpGen (g : Generation) : revive (lcDumpGen g) = .gen g := rfl

theorem itemsLoad_dumps (gens : List Generation) :
    itemsLoad (gens.map (fun g => .jstrJson (lcDumpGen g))) =
      some (gens.map (fun g => LCVal.gen g)) := by
  induction gens with
  | nil => rfl
  | cons g tl ih => simp [itemsLoad, pyJsonLoads, revive_lcDumpGen, ih]

theorem loads_dumps (gens : List Generation) :
    loadsGenerations (dumpsGenerations gens) =
      .ok (some (gens.map (fun g => LCVal.gen g))) := by
  simp [loadsGenerations, currentParse, dumpsGenerations, pyJsonLoads,
    itemsLoad_dumps]

theorem lookup_replace {α : Type} (k : String) (v : α) :
    ∀ (l : List (String × α)), l.any (fun kv => kv.1 = k) = true →
    List.lookup k (l.map (fun kv => if kv.1 = k then (k, v) else kv)) = some v := by
  intro l
  induction l with
  | nil => intro h; simp at h
  | cons hd tl ih =>
    intro h
    by_cases hk : hd.1 = k
    · rw [List.map_cons, if_pos hk]
      simp [List.lookup]
    · have h2 : tl.any (fun kv => kv.1 = k) = true := by
        simpa [hk] using h
      have hne : (k == hd.1) = false := beq_eq_false_iff_ne.mpr (Ne.symm hk)
      rw [List.map_cons, if_neg hk]
      simp [List.lookup, hne, ih h2]

theorem lookup_append_self {α : Type} (k : String) (v : α) :
    ∀ (l : List (String × α)), l.any (fun kv => kv.1 = k) = false →
    List.lookup k (l ++ [(k, v)]) = some v := by
  intro l
  induction l with
  | nil => intro _; simp [List.lookup]
  | cons hd tl ih =>
    intro h
    have hk : ¬(hd.1 = k) := by
      intro hc
      simp [hc] at h
    have h2 : tl.any (fun kv => kv.1 = k) = false := by
      simpa [hk] using h
    have hne : (k == hd.1) = false := beq_eq_false_iff_ne.mpr (Ne.symm hk)
    simp [List.lookup, hne, ih h2]

theorem kvGet_kvUpsert_self {α : Type} (store : List (String × α)) (k : String)
    (v : α) : kvGet (kvUpsert store k v) k = some v := by
  unfold kvGet kvUpsert
  by_cases h : store.any (fun kv => kv.1 = k) = true
  · rw [if_pos h]
    exact lookup_replace k v store h
  · rw [if_neg h]
    exact lookup_append_self k v store (Bool.eq_false_iff.mpr h)

/-- Shared round-trip fact: `update` writes `_dumps_generations(gens)` under
the hashed key and `lookup` reads and decodes it back. -/
theorem cache_roundtrip_aux (hash : String → String) (store : CacheStore)
    (prompt llm : String) (gens : List Generation) :
    lookupCache hash (updateCache hash store prompt llm gens) prompt llm =
      some (gens.map (fun g => LCVal.gen g)) := by
  unfold lookupCache lookupCacheBody updateCache
  rw [kvGet_kvUpsert_self]
  simp [pyDictGet, List.lookup, loads_dumps]

/-- C1: for every prompt, llm_string and generation list, `CouchbaseCache.update`
followed by `CouchbaseCache.lookup` on the same pair (no intervening write,
TTL not elapsed) returns a generation list equal to the input; in particular
`_loads_generations (_dumps_generations gens)` recovers `gens`, and `lookup`
reads back exactly the value `update` stored under the same hashed key. -/
theorem c1_cache_update_lookup_roundtrip (hash : String → String)
    (store : CacheStore) (prompt llm : String) (gens : List Generation) :
    lookupCache hash (updateCache hash store prompt llm gens) prompt llm =
      some (gens.map (fun g => LCVal.gen g)) ∧
    loadsGenerations (dumpsGenerations gens) =
      .ok (some (gens.map (fun g => LCVal.gen g))) :=
  ⟨cache_roundtrip_aux hash store prompt llm gens, loads_dumps gens⟩

/-- C2 (code bug): on the payload string `'[{}]'` both decode attempts fail to
produce a value, yet `_loads_generations` does not return `None`: the legacy
path's `Generation(**{})` raises a pydantic `ValidationError`, which is not in
the caught `(json.JSONDecodeError, TypeError)` set and propagates — contradicting
the function's own docstring ("Does not raise exceptions for malformed entries,
just logs a warning and returns none").  `CouchbaseCache.lookup` still returns
`None` because of its blanket `except Exception`. -/
theorem c2_loads_generations_raises_on_empty_dict_item :
    currentParse (Json.jstrJson (.jarr [.jobj []])) = none ∧
    loadsGenerations (Json.jstrJson (.jarr [.jobj []])) =
      .error (.validationError "text: Field required") ∧
    lookupCache (fun _ => "k")
      [("k", [("return_val", Json.jstrJson (.jarr [.jobj []]))])] "p" "l" =
      none :=
  ⟨rfl, rfl, rfl⟩

/-- C9: `_generate_key` hashes the bare concatenation `prompt + llm_string`, so
two distinct pairs with equal concatenations share the key: an `update` under
one pair overwrites the entry of the other, and `lookup` on either pair
returns the same stored value. -/
theorem c9_bare_concatenation_key_collision (hash : String → String)
    (store : CacheStore) (p1 l1 p2 l2 : String) (g1 g2 : List Generation)
    (h : p1 ++ l1 = p2 ++ l2) :
    generateKey hash p1 l1 = generateKey hash p2 l2 ∧
    lookupCache hash
        (updateCache hash (updateCache hash store p1 l1 g1) p2 l2 g2) p1 l1 =
      some (g2.map (fun g => LCVal.gen g)) ∧
    lookupCache hash
        (updateCache hash (updateCache hash store p1 l1 g1) p2 l2 g2) p1 l1 =
      lookupCache hash
        (updateCache hash (updateCache hash store p1 l1 g1) p2 l2 g2) p2 l2 := by
  have hkey : generateKey hash p1 l1 = generateKey hash p2 l2 := by
    unfold generateKey
    rw [h]
  have hsame :
      lookupCache hash
          (updateCache hash (updateCache hash store p1 l1 g1) p2 l2 g2) p1 l1 =
        lookupCache hash
          (updateCache hash (updateCache hash store p1 l1 g1) p2 l2 g2) p2 l2 := by
    unfold lookupCache lookupCacheBody
    rw [hkey]
  exact ⟨hkey,
    hsame.trans (cache_roundtrip_aux hash (updateCache hash store p1 l1 g1) p2 l2 g2),
    hsame⟩

/-- Witness for C9 at a concrete collision: `("ab", "c")` and `("a", "bc")`. -/
theorem c9_bare_concatenation_key_collision_witness :
    generateKey (fun s => s) "ab" "c" = generateKey (fun s => s) "a" "bc" ∧
    lookupCache (fun s => s)
        (updateCache (fun s => s)
          (updateCache (fun s => s) [] "ab" "c" []) "a" "bc"
          [⟨Json.jstrRaw "hi"⟩]) "ab" "c" =
      some ([Generation.mk (Json.jstrRaw "hi")].map (fun g => LCVal.gen g)) ∧
    lookupCache (fun s => s)
        (updateCache (fun s => s)
          (updateCache (fun s => s) [] "ab" "c" []) "a" "bc"
          [⟨Json.jstrRaw "hi"⟩]) "ab" "c" =
      lookupCache (fun s => s)
        (updateCache (fun s => s)
          (updateCache (fun s => s) [] "ab" "c" []) "a" "bc"
          [⟨Json.jstrRaw "hi"⟩]) "a" "bc" :=
  c9_bare_concatenation_key_collision (fun s => s) [] "ab" "c" "a" "bc" []
    [⟨Json.jstrRaw "hi"⟩] rfl

/-! ## vectorstores/vectorstores.py: `CouchbaseVectorStore.add_texts` / `delete`

The Couchbase SDK's `upsert_multi` / `remove_multi` are external calls; their
behaviour per batch enters the model as an outcome function on the chunk
index: full success (`all_ok`), partial failure (`all_ok` false, with the set
of keys that were written/removed and the failed keys' exceptions), or a
raised exception (`DocumentExistsException` / `DocumentNotFoundException`). -/

/-- A document written by the vector store: `{text_key, metadata_key, embedding_key}`. -/
structure VDoc where
  text : String
  metadata : List (String × Json)
  embedding : List Int

/-- The vector store collection. -/
abbrev VStore := List (String × VDoc)

/-- Outcome of one `upsert_multi` call. -/
inductive UpsertOutcome where
  /-- `result.all_ok` -/
  | ok
  /-- `all_ok` false: `written` keys were stored, `excs` are `result.exceptions`. -/
  | failSome (written : List String) (excs : List (String × String))
  /-- the call raised `DocumentExistsException` (nothing stored). -/
  | existsExc (msg : String)
  deriving DecidableEq

/-- Outcome of one `remove_multi` call. -/
inductive RemoveOutcome where
  /-- `result.all_ok` -/
  | ok
  /-- `all_ok` false: only `removed` keys were deleted. -/
  | notOk (removed : List String)
  /-- the call raised `DocumentNotFoundException` (nothing removed). -/
  | notFoundExc (msg : String)
  deriving DecidableEq

/-- `zip` over four lists (Python `zip(batch_ids, batch_texts, batch_metadatas,
batch_embedded_texts)`): truncates to the shortest. -/
def zip4 {a b c d : Type} : List a → List b → List c → List d →
    List (a × b × c × d)
  | x :: xs, y :: ys, z :: zs, w :: ws => (x, y, z, w) :: zip4 xs ys zs ws
  | _, _, _, _ => []

/-- Apply `upsert` for every entry (an `upsert_multi` that fully succeeds). -/
def kvUpsertAll (store : VStore) (docs : List (String × VDoc)) : VStore :=
  docs.foldl (fun s kv => kvUpsert s kv.1 kv.2) store

/-- Apply `upsert` only for the entries whose key the backend reports written. -/
def kvUpsertOnly (store : VStore) (docs : List (String × VDoc))
    (written : List String) : VStore :=
  docs.foldl (fun s kv => if written.contains kv.1 then kvUpsert s kv.1 kv.2 else s)
    store

/-- Remove every listed key (a `remove_multi`). -/
def kvRemoveAll (store : VStore) (keys : List String) : VStore :=
  store.filter (fun kv => !(keys.contains kv.1))

/-- The `batch_docs` dict comprehension of one chunk: slice the four parallel
lists at `[j*bs : j*bs + bs]`, embed the texts, zip, and build a dict. -/
def chunkDocsOf (embedDocs : List String → List (List Int))
    (texts : List String) (mds : List (List (String × Json)))
    (ids : List String) (bs j : Nat) : List (String × VDoc) :=
  let lo := j * bs
  let batchTexts := (texts.drop lo).take bs
  let batchMds := (mds.drop lo).take bs
  let batchIds := (ids.drop lo).take bs
  let batchEmbs := embedDocs batchTexts
  (zip4 batchIds batchTexts batchMds batchEmbs).foldl
    (fun d x => kvUpsert d x.1 ⟨x.2.1, x.2.2.1, x.2.2.2⟩) []

/-- The chunk loop of `add_texts` over the chunk indices of
`range(0, len(texts), batch_size)`.  `acc` is `doc_ids`. -/
def addTextsLoop (backend : Nat → UpsertOutcome)
    (embedDocs : List String → List (List Int)) (texts : List String)
    (mds : List (List (String × Json))) (ids : List String) (bs : Nat) :
    List Nat → VStore → List String → VStore × Except PErr (List String)
  | [], store, acc => (store, .ok acc)
  | j :: rest, store, acc =>
    let docs := chunkDocsOf embedDocs texts mds ids bs j
    match backend j with
    | .ok =>
      addTextsLoop backend embedDocs texts mds ids bs rest
        (kvUpsertAll store docs) (acc ++ docs.map (fun kv => kv.1))
    | .failSome written excs =>
      (kvUpsertOnly store docs written,
        .error (.insertFailed "Failed to insert documents." excs))
    | .existsExc m =>
      (store, .error (.valueError ("Document already exists: " ++ m)))

/-- Number of iterations of `range(0, n, bs)` for `bs > 0`. -/
def numChunks (n bs : Nat) : Nat := (n + bs - 1) / bs

/-- `CouchbaseVectorStore.add_texts`.  `uuidSupply` models the stream of
`uuid.uuid4().hex` values drawn when `ids` is absent; the TTL pass-through to
`upsert_multi(expiry=...)` is backend-enforced and not modelled. -/
def addTexts (backend : Nat → UpsertOutcome)
    (embedDocs : List String → List (List Int)) (texts : List String)
    (metadatas : Option (List (List (String × Json))))
    (ids : Option (List String)) (uuidSupply : List String)
    (batchSize : Option Nat) (store : VStore) :
    VStore × Except PErr (List String) :=
  let bs := match batchSize with
    | none => 100
    | some 0 => 100
    | some b => b
  let ids := match ids with
    | some l => l
    | none => uuidSupply.take texts.length
  let mds := match metadatas with
    | some l => l
    | none => List.replicate texts.length []
  addTextsLoop backend embedDocs texts mds ids bs
    (List.range (numChunks texts.length bs)) store []

/-- `result.all_ok` as a test on the modelled outcome. -/
def removeAllOk : RemoveOutcome → Bool
  | .ok => true
  | _ => false

/-- The chunk loop of `delete` over the chunk indices; `status` is
`deletion_status`. -/
def deleteLoop (backend : Nat → RemoveOutcome) (ids : List String) (bs : Nat) :
    List Nat → VStore → Bool → VStore × Except PErr Bool
  | [], store, status => (store, .ok status)
  | j :: rest, store, status =>
    let batch := (ids.drop (j * bs)).take bs
    match backend j with
    | .notFoundExc m =>
      (store, .error (.valueError ("Document not found: " ++ m)))
    | .ok => deleteLoop backend ids bs rest (kvRemoveAll store batch) status
    | .notOk removed =>
      deleteLoop backend ids bs rest (kvRemoveAll store removed) false

/-- `CouchbaseVectorStore.delete`.  A `batch_size` of 0 makes Python's
`range(0, n, 0)` raise `ValueError`. -/
def deleteIds (backend : Nat → RemoveOutcome) (ids : Option (List String))
    (batchSize : Nat) (store : VStore) : VStore × Except PErr Bool :=
  match ids with
  | none => (store, .error (.valueError "No document ids provided to delete."))
  | some l =>
    if batchSize = 0 then
      (store, .error (.valueError "range() arg 3 must not be zero"))
    else
      deleteLoop backend l batchSize
        (List.range (numChunks l.length batchSize)) store true

/-- The store after a run of fully successful chunks. -/
def chunkUpsertFold (embedDocs : List String → List (List Int))
    (texts : List String) (mds : List (List (String × Json)))
    (ids : List String) (bs : Nat) (js : List Nat) (store : VStore) : VStore :=
  js.foldl (fun s j => kvUpsertAll s (chunkDocsOf embedDocs texts mds ids bs j))
    store

theorem addTextsLoop_all_ok (backend : Nat → UpsertOutcome)
    (embedDocs : List String → List (List Int)) (texts : List String)
    (mds : List (List (String × Json))) (ids : List String) (bs : Nat) :
    ∀ (js : List Nat) (store : VStore) (acc : List String),
    (∀ j ∈ js, backend j = .ok) →
    addTextsLoop backend embedDocs texts mds ids bs js store acc =
      (chunkUpsertFold embedDocs texts mds ids bs js store,
        .ok (acc ++ js.flatMap
          (fun j => (chunkDocsOf embedDocs texts mds ids bs j).map
            (fun kv => kv.1)))) := by
  intro js
  induction js with
  | nil => intro store acc _; simp [addTextsLoop, chunkUpsertFold]
  | cons j rest ih =>
    intro store acc h
    have hj : backend j = .ok := h j (List.mem_cons_self j rest)
    have hr : ∀ i ∈ rest, backend i = .ok := fun i hi => h i (List.mem_cons_of_mem j hi)
    simp only [addTextsLoop, hj]
    rw [ih _ _ hr]
    simp [chunkUpsertFold, List.append_assoc]

theorem addTextsLoop_first_fail (backend : Nat → UpsertOutcome)
    (embedDocs : List String → List (List Int)) (texts : List String)
    (mds : List (List (String × Json))) (ids : List String) (bs : Nat) :
    ∀ (js1 : List Nat) (j0 : Nat) (js2 : List Nat) (store : VStore)
      (acc : List String) (w : List String) (e : List (String × String)),
    (∀ j ∈ js1, backend j = .ok) → backend j0 = .failSome w e →
    addTextsLoop backend embedDocs texts mds ids bs (js1 ++ j0 :: js2) store acc =
      (kvUpsertOnly (chunkUpsertFold embedDocs texts mds ids bs js1 store)
        (chunkDocsOf embedDocs texts mds ids bs j0) w,
        .error (.insertFailed "Failed to insert documents." e)) := by
  intro js1
  induction js1 with
  | nil =>
    intro j0 js2 store acc w e _ hj0
    simp [addTextsLoop, hj0, chunkUpsertFold]
  | cons j rest ih =>
    intro j0 js2 store acc w e h hj0
    have hj : backend j = .ok := h j (List.mem_cons_self j rest)
    have hr : ∀ i ∈ rest, backend i = .ok := fun i hi => h i (List.mem_cons_of_mem j hi)
    simp only [List.cons_append, addTextsLoop, hj, List.append_eq]
    rw [ih j0 js2 _ _ w e hr hj0]
    simp [chunkUpsertFold]

theorem addTextsLoop_first_exists (backend : Nat → UpsertOutcome)
    (embedDocs : List String → List (List Int)) (texts : List String)
    (mds : List (List (String × Json))) (ids : List String) (bs : Nat) :
    ∀ (js1 : List Nat) (j0 : Nat) (js2 : List Nat) (store : VStore)
      (acc : List String) (m : String),
    (∀ j ∈ js1, backend j = .ok) → backend j0 = .existsExc m →
    addTextsLoop backend embedDocs texts mds ids bs (js1 ++ j0 :: js2) store acc =
      (chunkUpsertFold embedDocs texts mds ids bs js1 store,
        .error (.valueError ("Document already exists: " ++ m))) := by
  intro js1
  induction js1 with
  | nil =>
    intro j0 js2 store acc m _ hj0
    simp [addTextsLoop, hj0, chunkUpsertFold]
  | cons j rest ih =>
    intro j0 js2 store acc m h hj0
    have hj : backend j = .ok := h j (List.mem_cons_self j rest)
    have hr : ∀ i ∈ rest, backend i = .ok := fun i hi => h i (List.mem_cons_of_mem j hi)
    simp only [List.cons_append, addTextsLoop, hj, List.append_eq]
    rw [ih j0 js2 _ _ m hr hj0]
    simp [chunkUpsertFold]

/-- The store after a run of delete chunks (per-chunk backend outcome applied). -/
def chunkRemoveFold (backend : Nat → RemoveOutcome) (ids : List String)
    (bs : Nat) (js : List Nat) (store : VStore) : VStore :=
  js.foldl (fun s j =>
    match backend j with
    | .ok => kvRemoveAll s ((ids.drop (j * bs)).take bs)
    | .notOk removed => kvRemoveAll s removed
    | .notFoundExc _ => s) store

theorem deleteLoop_no_notfound (backend : Nat → RemoveOutcome)
    (ids : List String) (bs : Nat) :
    ∀ (js : List Nat) (store : VStore) (status : Bool),
    (∀ j ∈ js, ∀ m, backend j ≠ .notFoundExc m) →
    deleteLoop backend ids bs js store status =
      (chunkRemoveFold backend ids bs js store,
        .ok (status && js.all (fun j => removeAllOk (backend j)))) := by
  intro js
  induction js with
  | nil => intro store status _; simp [deleteLoop, chunkRemoveFold]
  | cons j rest ih =>
    intro store status h
    have hj := h j (List.mem_cons_self j rest)
    have hr : ∀ i ∈ rest, ∀ m, backend i ≠ .notFoundExc m :=
      fun i hi => h i (List.mem_cons_of_mem j hi)
    match hb : backend j with
    | .notFoundExc m => exact absurd hb (hj m)
    | .ok =>
      simp only [deleteLoop, hb]
      rw [ih _ _ hr]
      simp [chunkRemoveFold, hb, removeAllOk, Bool.and_assoc]
    | .notOk removed =>
      simp only [deleteLoop, hb]
      rw [ih _ _ hr]
      simp [chunkRemoveFold, hb, removeAllOk]

theorem deleteLoop_first_notfound (backend : Nat → RemoveOutcome)
    (ids : List String) (bs : Nat) :
    ∀ (js1 : List Nat) (j0 : Nat) (js2 : List Nat) (store : VStore)
      (status : Bool) (m : String),
    (∀ j ∈ js1, ∀ m2, backend j ≠ .notFoundExc m2) →
    backend j0 = .notFoundExc m →
    deleteLoop backend ids bs (js1 ++ j0 :: js2) store status =
      (chunkRemoveFold backend ids bs js1 store,
        .error (.valueError ("Document not found: " ++ m))) := by
  intro js1
  induction js1 with
  | nil =>
    intro j0 js2 store status m _ hj0
    simp [deleteLoop, hj0, chunkRemoveFold]
  | cons j rest ih =>
    intro j0 js2 store status m h hj0
    have hj := h j (List.mem_cons_self j rest)
    have hr : ∀ i ∈ rest, ∀ m2, backend i ≠ .notFoundExc m2 :=
      fun i hi => h i (List.mem_cons_of_mem j hi)
    match hb : backend j with
    | .notFoundExc m2 => exact absurd hb (hj m2)
    | .ok =>
      simp only [List.cons_append, deleteLoop, hb, List.append_eq]
      rw [ih j0 js2 _ _ m hr hj0]
      simp [chunkRemoveFold, hb]
    | .notOk removed =>
      simp only [List.cons_append, deleteLoop, hb, List.append_eq]
      rw [ih j0 js2 _ _ m hr hj0]
      simp [chunkRemoveFold, hb]

/-- C3: `add_texts` writes chunk-by-chunk in order with batch size `bs`
(default 100, via the truthiness test on `batch_size`).  If every chunk's
multi-write succeeds, it returns exactly the ids of all written chunks and the
store holds every chunk's documents.  A chunk reporting partial failure raises
a `ValueError` carrying the failed keys' exceptions; a chunk that raises
`DocumentExistsException` raises the distinguishable "Document already exists"
error.  In both failure cases the chunks written before the failing one remain
stored (no rollback) and nothing is returned. -/
theorem c3_add_texts_chunked_write_semantics (backend : Nat → UpsertOutcome)
    (embedDocs : List String → List (List Int)) (texts : List String)
    (mds : List (List (String × Json))) (ids : List String) (store : VStore)
    (bs : Nat) (hbs : 0 < bs) :
    (addTexts backend embedDocs texts (some mds) (some ids) [] none store =
      addTexts backend embedDocs texts (some mds) (some ids) [] (some 100) store) ∧
    ((∀ j ∈ List.range (numChunks texts.length bs), backend j = .ok) →
      addTexts backend embedDocs texts (some mds) (some ids) [] (some bs) store =
        (chunkUpsertFold embedDocs texts mds ids bs
            (List.range (numChunks texts.length bs)) store,
          .ok ((List.range (numChunks texts.length bs)).flatMap
            (fun j => (chunkDocsOf embedDocs texts mds ids bs j).map
              (fun kv => kv.1))))) ∧
    (∀ (js1 : List Nat) (j0 : Nat) (js2 : List Nat) (w : List String)
        (e : List (String × String)),
      List.range (numChunks texts.length bs) = js1 ++ j0 :: js2 →
      (∀ j ∈ js1, backend j = .ok) → backend j0 = .failSome w e →
      addTexts backend embedDocs texts (some mds) (some ids) [] (some bs) store =
        (kvUpsertOnly (chunkUpsertFold embedDocs texts mds ids bs js1 store)
            (chunkDocsOf embedDocs texts mds ids bs j0) w,
          .error (.insertFailed "Failed to insert documents." e))) ∧
    (∀ (js1 : List Nat) (j0 : Nat) (js2 : List Nat) (m : String),
      List.range (numChunks texts.length bs) = js1 ++ j0 :: js2 →
      (∀ j ∈ js1, backend j = .ok) → backend j0 = .existsExc m →
      addTexts backend embedDocs texts (some mds) (some ids) [] (some bs) store =
        (chunkUpsertFold embedDocs texts mds ids bs js1 store,
          .error (.valueError ("Document already exists: " ++ m)))) := by
  obtain ⟨n, rfl⟩ : ∃ n, bs = n + 1 := ⟨bs - 1, by omega⟩
  refine ⟨rfl, ?_, ?_, ?_⟩
  · intro h
    exact addTextsLoop_all_ok backend embedDocs texts mds ids (n + 1)
      (List.range (numChunks texts.length (n + 1))) store [] h
  · intro js1 j0 js2 w e hdec h1 hj0
    show addTextsLoop backend embedDocs texts mds ids (n + 1)
        (List.range (numChunks texts.length (n + 1))) store [] = _
    rw [hdec]
    exact addTextsLoop_first_fail backend embedDocs texts mds ids (n + 1)
      js1 j0 js2 store [] w e h1 hj0
  · intro js1 j0 js2 m hdec h1 hj0
    show addTextsLoop backend embedDocs texts mds ids (n + 1)
        (List.range (numChunks texts.length (n + 1))) store [] = _
    rw [hdec]
    exact addTextsLoop_first_exists backend embedDocs texts mds ids (n + 1)
      js1 j0 js2 store [] m h1 hj0

/-- Witness for C3: four texts, batch size 2; the second chunk reports partial
failure, so `add_texts` raises the exceptions-carrying error while the first
chunk's documents stay written. -/
theorem c3_add_texts_chunked_write_semantics_witness :
    addTexts (fun j => if j = 0 then .ok else .failSome ["i3"] [("i4", "err")])
        (fun ts => ts.map (fun _ => ([] : List Int)))
        ["a", "b", "c", "d"] (some [[], [], [], []])
        (some ["i1", "i2", "i3", "i4"]) [] (some 2) [] =
      (kvUpsertOnly
          (chunkUpsertFold (fun ts => ts.map (fun _ => ([] : List Int)))
            ["a", "b", "c", "d"] [[], [], [], []] ["i1", "i2", "i3", "i4"] 2
            [0] [])
          (chunkDocsOf (fun ts => ts.map (fun _ => ([] : List Int)))
            ["a", "b", "c", "d"] [[], [], [], []] ["i1", "i2", "i3", "i4"] 2 1)
          ["i3"],
        .error (.insertFailed "Failed to insert documents." [("i4", "err")])) :=
  (c3_add_texts_chunked_write_semantics
      (fun j => if j = 0 then .ok else .failSome ["i3"] [("i4", "err")])
      (fun ts => ts.map (fun _ => ([] : List Int)))
      ["a", "b", "c", "d"] [[], [], [], []] ["i1", "i2", "i3", "i4"] [] 2
      (by decide)).2.2.1
    [0] 1 [] ["i3"] [("i4", "err")] rfl (by decide) rfl

/-- C4: `delete` removes documents in chunks of `batch_size`; the returned
boolean is true only if every chunk reports `all_ok`; a chunk that raises
`DocumentNotFoundException` makes `delete` raise immediately, abandoning all
remaining chunks; any other partial chunk failure flips the boolean to false
while the remaining chunks are still processed. -/
theorem c4_delete_chunked_semantics (backend : Nat → RemoveOutcome)
    (ids : List String) (store : VStore) (bs : Nat) (hbs : 0 < bs) :
    ((∀ j ∈ List.range (numChunks ids.length bs), ∀ m, backend j ≠ .notFoundExc m) →
      deleteIds backend (some ids) bs store =
        (chunkRemoveFold backend ids bs (List.range (numChunks ids.length bs)) store,
          .ok ((List.range (numChunks ids.length bs)).all
            (fun j => removeAllOk (backend j))))) ∧
    (∀ (js1 : List Nat) (j0 : Nat) (js2 : List Nat) (m : String),
      List.range (numChunks ids.length bs) = js1 ++ j0 :: js2 →
      (∀ j ∈ js1, ∀ m2, backend j ≠ .notFoundExc m2) →
      backend j0 = .notFoundExc m →
      deleteIds backend (some ids) bs store =
        (chunkRemoveFold backend ids bs js1 store,
          .error (.valueError ("Document not found: " ++ m)))) := by
  have hbz : ¬(bs = 0) := by omega
  constructor
  · intro h
    show (if bs = 0 then
        (store, Except.error (PErr.valueError "range() arg 3 must not be zero"))
      else deleteLoop backend ids bs (List.range (numChunks ids.length bs))
        store true) = _
    rw [if_neg hbz]
    rw [deleteLoop_no_notfound backend ids bs _ store true h]
    simp
  · intro js1 j0 js2 m hdec h1 hj0
    show (if bs = 0 then
        (store, Except.error (PErr.valueError "range() arg 3 must not be zero"))
      else deleteLoop backend ids bs (List.range (numChunks ids.length bs))
        store true) = _
    rw [if_neg hbz, hdec]
    exact deleteLoop_first_notfound backend ids bs js1 j0 js2 store true m h1 hj0

/-- Witness for C4: four ids, batch size 2; the second chunk raises
`DocumentNotFoundException`, so `delete` raises and abandons the rest. -/
theorem c4_delete_chunked_semantics_witness :
    deleteIds (fun j => if j = 0 then .ok else .notFoundExc "gone")
        (some ["i1", "i2", "i3", "i4"]) 2 [] =
      (chunkRemoveFold (fun j => if j = 0 then .ok else .notFoundExc "gone")
          ["i1", "i2", "i3", "i4"] 2 [0] [],
        .error (.valueError ("Document not found: " ++ "gone"))) :=
  (c4_delete_chunked_semantics
      (fun j => if j = 0 then .ok else .notFoundExc "gone")
      ["i1", "i2", "i3", "i4"] [] 2 (by decide)).2
    [0] 1 [] "gone" rfl
    (fun j hj m2 => by rcases List.mem_singleton.mp hj with rfl; simp) rfl

/-! ## vectorstores/vectorstores.py: field selection and `_format_metadata`

`str.startswith` and `str.split(sep)` are modelled on character lists so the
scan semantics of Python's non-overlapping left-to-right `split` is explicit. -/

/-- Python `s.startswith(pre)`. -/
def pyStartsWith (s pre : String) : Bool :=
  pre.toList.isPrefixOf s.toList

/-- Python `s.split(sep)` for a non-empty separator `c0 :: cs`: left-to-right,
non-overlapping scan. -/
def splitSep1 (c0 : Char) (cs : List Char) : List Char → List (List Char)
  | [] => [[]]
  | c :: rest =>
    if (c0 :: cs).isPrefixOf (c :: rest) then
      [] :: splitSep1 c0 cs ((c :: rest).drop (c0 :: cs).length)
    else
      match splitSep1 c0 cs rest with
      | [] => [[c]]
      | t :: ts => (c :: t) :: ts
termination_by s => s.length
decreasing_by
  · simp
    omega
  · simp

/-- Python `s.split(sep)` on strings (an empty separator raises in Python and
never occurs here: the only separator used is `"metadata."`). -/
def pySplit (sep s : String) : List String :=
  match sep.toList with
  | [] => [s]
  | c0 :: cs => (splitSep1 c0 cs s.toList).map (fun l => l.asString)

/-- The key transformation of `_format_metadata`:
`key.split(self._metadata_key + ".")[-1]` for keys starting with `"metadata"`,
the key itself otherwise. -/
def metadataTransformKey (key : String) : String :=
  if pyStartsWith key "metadata" then (pySplit "metadata." key).getLastD key
  else key

/-- `CouchbaseVectorStore._format_metadata`: both branches of the loop are
dict inserts of the (possibly transformed) key. -/
def formatMetadata (rowFields : List (String × Json)) : List (String × Json) :=
  rowFields.foldl (fun md kv => pyDictInsert md (metadataTransformKey kv.1) kv.2)
    []

/-- The `fields` adjustment of `similarity_search_with_score_by_vector`:
`if fields != ["*"] and self._text_key not in fields: fields.append(text_key)`. -/
def adjustFields (textKey : String) (fields : List String) : List String :=
  if fields ≠ ["*"] ∧ ¬(fields.contains textKey) then fields ++ [textKey]
  else fields

/-- A row streamed back by `scope.search(...).rows()`. -/
structure SearchRow where
  id : String
  score : Rat
  fields : List (String × Json)

/-- A result `Document` paired off with the text popped out of the row. -/
structure SearchDoc where
  id : String
  pageContent : Json
  metadata : List (String × Json)

/-- Python `row.fields.pop(text_key, "")`: the value (or the default) and the
dict without that key. -/
def pyDictPop (kvs : List (String × Json)) (k : String) (dflt : Json) :
    Json × List (String × Json) :=
  match kvs.lookup k with
  | some v => (v, kvs.filter (fun kv => kv.1 != k))
  | none => (dflt, kvs)

/-- The row-parsing loop of `similarity_search_with_score_by_vector`: a row
with no fields (Python-falsy `row.fields`) raises; otherwise the text key is
popped out before `_format_metadata` builds the metadata. -/
def parseRows (textKey : String) : List SearchRow → Except PErr (List (SearchDoc × Rat))
  | [] => .ok []
  | row :: rest =>
    if row.fields.isEmpty then
      .error (.valueError
        ("Search results do not contain the fields from the document. Please check if the Search index contains the required fields:"
          ++ textKey))
    else
      let popped := pyDictPop row.fields textKey (.jstrRaw "")
      match parseRows textKey rest with
      | .ok tl =>
        .ok ((⟨row.id, popped.1, formatMetadata popped.2⟩, row.score) :: tl)
      | .error e => .error e

/-- Rendering of an exception's message, for the `f"Search failed with error: {e}"`
rewrap. -/
def renderPErr : PErr → String
  | .valueError m => m
  | .insertFailed m _ => m
  | .validationError m => m
  | .keyError k => k
  | .docNotFound k => k
  | .typeError m => m
  | .jsonDecodeError m => m

/-- `CouchbaseVectorStore.similarity_search_with_score_by_vector`: resolve the
`fields` kwarg (default `["*"]`), force-include the text key, run the backend
search (external collaborator, a parameter) and parse the rows; everything is
wrapped by `except Exception as e: raise ValueError(f"Search failed with error: {e}")`. -/
def simSearchWithScoreByVector
    (searchBackend : List Int → Nat → List String → List SearchRow)
    (textKey : String) (embedding : List Int) (k : Nat)
    (fields : Option (List String)) : Except PErr (List (SearchDoc × Rat)) :=
  let fields0 := fields.getD ["*"]
  let fields1 := adjustFields textKey fields0
  let rows := searchBackend embedding k fields1
  match parseRows textKey rows with
  | .ok r => .ok r
  | .error e => .error (.valueError ("Search failed with error: " ++ renderPErr e))

/-- Spec-side key transformation ("fields prefixed with `metadata.` are placed
under their unprefixed key; all other fields under their own name"), for
comparison with the code's `metadataTransformKey`. -/
def specStripKey (k : String) : String :=
  if pyStartsWith k "metadata." then (k.toList.drop 9).asString else k

/-- A key on which the code's split-on-last-occurrence agrees with the spec's
strip-one-prefix: after removing a leading `"metadata."` (when present), no
further `"metadata."` occurs. -/
def specKeyOk (k : String) : Prop :=
  containsSeq "metadata.".toList (specStripKey k).toList = false

instance (k : String) : Decidable (specKeyOk k) := by
  unfold specKeyOk
  infer_instance

theorem splitSep1_sep_head (c0 : Char) (cs r : List Char) :
    splitSep1 c0 cs ((c0 :: cs) ++ r) = [] :: splitSep1 c0 cs r := by
  rw [show (c0 :: cs) ++ r = c0 :: (cs ++ r) from rfl]
  rw [splitSep1]
  rw [if_pos]
  · rw [show (c0 :: (cs ++ r)).drop (c0 :: cs).length = (cs ++ r).drop cs.length
      from rfl]
    rw [List.drop_left]
  · exact List.isPrefixOf_iff_prefix.mpr ⟨r, by simp⟩

theorem splitSep1_no_occ (c0 : Char) (cs : List Char) :
    ∀ (s : List Char), containsSeq (c0 :: cs) s = false →
    splitSep1 c0 cs s = [s] := by
  intro s
  induction s with
  | nil => intro _; rw [splitSep1]
  | cons c rest ih =>
    intro h
    rw [containsSeq] at h
    have h1 : (c0 :: cs).isPrefixOf (c :: rest) = false := by
      rcases Bool.or_eq_false_iff.mp h with ⟨h1, _⟩
      exact h1
    have h2 : containsSeq (c0 :: cs) rest = false := by
      rcases Bool.or_eq_false_iff.mp h with ⟨_, h2⟩
      exact h2
    rw [splitSep1, if_neg (by simp [h1]), ih h2]

theorem metadataTransformKey_strip (r : String)
    (h : containsSeq "metadata.".toList r.toList = false) :
    metadataTransformKey ("metadata." ++ r) = r := by
  have hlist : ("metadata." ++ r).toList = "metadata.".toList ++ r.toList :=
    String.data_append _ r
  unfold metadataTransformKey
  rw [if_pos ?startsw]
  case startsw =>
    unfold pyStartsWith
    rw [hlist]
    exact List.isPrefixOf_iff_prefix.mpr ⟨'.' :: r.toList, rfl⟩
  show ((splitSep1 'm' ['e', 't', 'a', 'd', 'a', 't', 'a', '.']
      (("metadata." ++ r).toList)).map (fun l => l.asString)).getLastD _ = r
  rw [hlist]
  rw [show "metadata.".toList ++ r.toList =
    ('m' :: ['e', 't', 'a', 'd', 'a', 't', 'a', '.']) ++ r.toList from rfl]
  rw [splitSep1_sep_head]
  rw [splitSep1_no_occ 'm' ['e', 't', 'a', 'd', 'a', 't', 'a', '.'] r.toList h]
  simp
  rfl

theorem specStripKey_strip (r : String) :
    specStripKey ("metadata." ++ r) = r := by
  have hlist : ("metadata." ++ r).toList = "metadata.".toList ++ r.toList :=
    String.data_append _ r
  unfold specStripKey
  rw [if_pos ?startsw]
  case startsw =>
    unfold pyStartsWith
    rw [hlist]
    exact List.isPrefixOf_iff_prefix.mpr ⟨r.toList, rfl⟩
  rw [hlist]
  rw [show ("metadata.".toList ++ r.toList).drop 9 =
    ("metadata.".toList ++ r.toList).drop "metadata.".toList.length from rfl]
  rw [List.drop_left]
  rfl

theorem metadataTransformKey_eq_spec (k : String) (h : specKeyOk k) :
    metadataTransformKey k = specStripKey k := by
  by_cases h9 : pyStartsWith k "metadata." = true
  · obtain ⟨t, ht⟩ := List.isPrefixOf_iff_prefix.mp h9
    have hk : k = "metadata." ++ t.asString := by
      apply String.ext
      rw [String.data_append]
      exact ht.symm
    subst hk
    unfold specKeyOk at h
    rw [specStripKey_strip] at h
    rw [specStripKey_strip, metadataTransformKey_strip _ h]
  · have hs : specStripKey k = k := by
      unfold specStripKey
      rw [if_neg (by simpa using h9)]
    rw [hs]
    unfold specKeyOk at h
    rw [hs] at h
    by_cases h8 : pyStartsWith k "metadata" = true
    · unfold metadataTransformKey
      rw [if_pos h8]
      show ((splitSep1 'm' ['e', 't', 'a', 'd', 'a', 't', 'a', '.']
          k.toList).map (fun l => l.asString)).getLastD _ = k
      rw [splitSep1_no_occ 'm' ['e', 't', 'a', 'd', 'a', 't', 'a', '.'] k.toList h]
      simp
      rfl
    · unfold metadataTransformKey
      rw [if_neg (by simpa using h8)]

theorem pyDictInsert_append (kvs : List (String × Json)) (k : String) (v : Json)
    (h : ¬ k ∈ kvs.map (fun kv => kv.1)) :
    pyDictInsert kvs k v = kvs ++ [(k, v)] := by
  unfold pyDictInsert
  rw [if_neg]
  intro hc
  obtain ⟨kv, hmem, he⟩ := List.any_eq_true.mp hc
  exact h (List.mem_map.mpr ⟨kv, hmem, of_decide_eq_true he⟩)

theorem formatMetadata_fold_spec :
    ∀ (rf acc : List (String × Json)),
    (∀ kv ∈ rf, specKeyOk kv.1) →
    (rf.map (fun kv => specStripKey kv.1)).Nodup →
    (∀ kv ∈ rf, specStripKey kv.1 ∉ acc.map (fun kv2 => kv2.1)) →
    rf.foldl (fun md kv => pyDictInsert md (metadataTransformKey kv.1) kv.2) acc =
      acc ++ rf.map (fun kv => (specStripKey kv.1, kv.2)) := by
  intro rf
  induction rf with
  | nil => intro acc _ _ _; simp
  | cons kv rest ih =>
    intro acc h1 h2 h3
    have hok := h1 kv (List.mem_cons_self kv rest)
    rw [List.map_cons] at h2
    have hhead := (List.nodup_cons.mp h2).1
    have htail := (List.nodup_cons.mp h2).2
    simp only [List.foldl_cons]
    rw [metadataTransformKey_eq_spec _ hok]
    rw [pyDictInsert_append _ _ _ (h3 kv (List.mem_cons_self kv rest))]
    rw [ih (acc ++ [(specStripKey kv.1, kv.2)])
      (fun kv2 hkv2 => h1 kv2 (List.mem_cons_of_mem kv hkv2))
      htail
      ?fresh]
    · simp
    case fresh =>
      intro kv2 hkv2
      simp only [List.map_append, List.map_cons, List.map_nil, List.mem_append,
        List.mem_singleton]
      rintro (hin | heq)
      · exact h3 kv2 (List.mem_cons_of_mem kv hkv2) hin
      · exact hhead (heq ▸ List.mem_map.mpr ⟨kv2, hkv2, rfl⟩)

/-- `_format_metadata` agrees with the spec's strip-one-prefix description on
every field dict whose keys have no nested `"metadata."` occurrence and whose
stripped keys do not collide. -/
theorem formatMetadata_spec (rf : List (String × Json))
    (h1 : ∀ kv ∈ rf, specKeyOk kv.1)
    (h2 : (rf.map (fun kv => specStripKey kv.1)).Nodup) :
    formatMetadata rf = rf.map (fun kv => (specStripKey kv.1, kv.2)) := by
  unfold formatMetadata
  rw [formatMetadata_fold_spec rf [] h1 h2 (by simp)]
  simp

theorem lookup_none_key_ne {α : Type} (k : String) :
    ∀ (kvs : List (String × α)), kvs.lookup k = none →
    ∀ kv ∈ kvs, kv.1 ≠ k := by
  intro kvs
  induction kvs with
  | nil => intro _ kv hkv; simp at hkv
  | cons hd tl ih =>
    intro h kv hkv
    have hne : (k == hd.1) = false := by
      cases hb : (k == hd.1) with
      | false => rfl
      | true => simp [List.lookup, hb] at h
    have htl : tl.lookup k = none := by
      simpa [List.lookup, hne] using h
    rcases List.mem_cons.mp hkv with rfl | hmem
    · exact fun hc => (by simp [hc] at hne)
    · exact ih htl kv hmem

theorem pyDictPop_no_key (kvs : List (String × Json)) (k : String)
    (dflt : Json) :
    ((pyDictPop kvs k dflt).2).all (fun kv => kv.1 != k) = true := by
  unfold pyDictPop
  rw [List.all_eq_true]
  match h : kvs.lookup k with
  | some v =>
    intro kv hkv
    exact (List.mem_filter.mp hkv).2
  | none =>
    intro kv hkv
    exact bne_iff_ne.mpr (lookup_none_key_ne k kvs h kv hkv)

theorem parseRows_ok (tk : String) :
    ∀ (rows : List SearchRow), (∀ r ∈ rows, r.fields.isEmpty = false) →
    parseRows tk rows = .ok (rows.map (fun r =>
      (⟨r.id, (pyDictPop r.fields tk (.jstrRaw "")).1,
        formatMetadata ((pyDictPop r.fields tk (.jstrRaw "")).2)⟩, r.score))) := by
  intro rows
  induction rows with
  | nil => intro _; rfl
  | cons row rest ih =>
    intro h
    have hrow := h row (List.mem_cons_self row rest)
    have hrest := fun r hr => h r (List.mem_cons_of_mem row hr)
    rw [parseRows, if_neg (by simp [hrow]), ih hrest]
    rfl

/-- C5 counterexample: the claim says a returned field prefixed with
`"metadata."` lands in metadata under its unprefixed key.  For the field
`"metadata.metadata.k"` the unprefixed key is `"metadata.k"`, but the code's
`key.split("metadata.")[-1]` keeps only the part after the LAST occurrence,
producing `"k"`. -/
theorem c5_metadata_nested_prefix_counterexample :
    formatMetadata [("metadata.metadata.k", Json.jnull)] = [("k", Json.jnull)] ∧
    ¬(formatMetadata [("metadata.metadata.k", Json.jnull)] =
      [("metadata.k", Json.jnull)]) := by
  have h : formatMetadata [("metadata.metadata.k", Json.jnull)] =
      [("k", Json.jnull)] := by
    simp [formatMetadata, metadataTransformKey, pyStartsWith, pySplit,
      splitSep1, pyDictInsert]
    rfl
  refine ⟨h, ?_⟩
  rw [h]
  intro hc
  injection hc with h1 _
  injection h1 with hk _
  exact absurd hk (by decide)

/-- C5 (amended): when the caller restricts `fields` to a list not containing
the text key, the text key is appended and the backend search is issued with
`fields ++ [text_key]`; every returned row with a non-empty field dict becomes
a document whose text is popped out of the fields before the metadata map is
built (so the text key is absent from the popped dict); and the metadata map
is built by stripping one `"metadata."` prefix (other keys kept as-is) —
provided no key contains a further `"metadata."` occurrence after the optional
leading one (the code keeps only the part after the LAST occurrence) and the
stripped keys do not collide. -/
theorem c5_fields_and_metadata_reconstruction :
    (∀ (tk : String) (F : List String), F ≠ ["*"] → F.contains tk = false →
      adjustFields tk F = F ++ [tk]) ∧
    (∀ (backend : List Int → Nat → List String → List SearchRow) (tk : String)
        (emb : List Int) (k : Nat) (F : List String),
      F ≠ ["*"] → F.contains tk = false →
      (∀ r ∈ backend emb k (F ++ [tk]), r.fields.isEmpty = false) →
      simSearchWithScoreByVector backend tk emb k (some F) =
        .ok ((backend emb k (F ++ [tk])).map (fun r =>
          (⟨r.id, (pyDictPop r.fields tk (.jstrRaw "")).1,
            formatMetadata ((pyDictPop r.fields tk (.jstrRaw "")).2)⟩,
            r.score)))) ∧
    (∀ (kvs : List (String × Json)) (tk : String) (dflt : Json),
      ((pyDictPop kvs tk dflt).2).all (fun kv => kv.1 != tk) = true) ∧
    (∀ (rf : List (String × Json)), (∀ kv ∈ rf, specKeyOk kv.1) →
      (rf.map (fun kv => specStripKey kv.1)).Nodup →
      formatMetadata rf = rf.map (fun kv => (specStripKey kv.1, kv.2))) := by
  have hadj : ∀ (tk : String) (F : List String), F ≠ ["*"] →
      F.contains tk = false → adjustFields tk F = F ++ [tk] := by
    intro tk F h1 h2
    unfold adjustFields
    rw [if_pos ⟨h1, by simpa using h2⟩]
  refine ⟨hadj, ?_, pyDictPop_no_key, formatMetadata_spec⟩
  intro backend tk emb k F h1 h2 hrows
  simp only [simSearchWithScoreByVector, Option.getD]
  rw [hadj tk F h1 h2]
  rw [parseRows_ok tk _ hrows]

/-- Witness for C5 at concrete inputs: restricted fields get the text key
appended, and a `metadata.`-prefixed field is unprefixed while a plain field
keeps its name. -/
theorem c5_fields_and_metadata_reconstruction_witness :
    adjustFields "text" ["metadata.page"] = ["metadata.page", "text"] ∧
    formatMetadata [("metadata.page", Json.jnull), ("f", Json.jnum 2)] =
      [("page", Json.jnull), ("f", Json.jnum 2)] := by
  refine ⟨c5_fields_and_metadata_reconstruction.1 "text" ["metadata.page"]
    (by decide) (by decide), ?_⟩
  have h := c5_fields_and_metadata_reconstruction.2.2.2
    [("metadata.page", Json.jnull), ("f", Json.jnum 2)]
    (by decide) (by decide)
  rw [h]
  rfl

/-! ## chat_message_histories.py: `CouchbaseChatMessageHistory`

The message payload is opaque to this layer (spec section 6:
`message_to_dict` / `messages_from_dict` are the externally supplied codec and
round-trip), so a stored message dict is modelled by the message itself.
`uuid.uuid4().hex` and `time.time()` are external draws and enter the model as
the streams `keys` and `tss`, one entry per message. -/

/-- An opaque chat message payload. -/
structure BaseMsg where
  content : String
  deriving DecidableEq, Repr

/-- A document of the chat-history collection:
`{message, session_id, ts}`. -/
structure HDoc where
  message : BaseMsg
  sessionId : String
  ts : Rat
  deriving DecidableEq, Repr

/-- The chat-history collection. -/
abbrev HStore := List (String × HDoc)

/-- `collection.insert_multi`: insert-only semantics — fails (raises) if any
key already exists, else appends the batch. -/
def kvInsertMulti (store : HStore) (docs : List (String × HDoc)) :
    Option HStore :=
  if docs.all (fun kv => (kvGet store kv.1).isNone) then some (store ++ docs)
  else none

/-- Slicing a list into consecutive batches of `b` (the
`messages_to_insert[i : i + batch_size]` loop; `b` is the literal 100, never 0). -/
def chunksOf {α : Type} (b : Nat) : List α → List (List α)
  | [] => []
  | x :: xs =>
    if b = 0 then []
    else (x :: xs).take b :: chunksOf b ((x :: xs).drop b)
termination_by l => l.length
decreasing_by
  simp
  omega

/-- `messages_to_insert`: one `{message, session_id, ts}` record per message,
each with its own fresh key and timestamp. -/
def buildMessages (session : String) (msgs : List BaseMsg)
    (keys : List String) (tss : List Rat) : List (String × HDoc) :=
  (msgs.zip (keys.zip tss)).map (fun x => (x.2.1, ⟨x.1, session, x.2.2⟩))

/-- The batch loop of `add_messages`: the whole loop body is inside one
try/except, so the first failing `insert_multi` abandons all remaining batches
while keeping the batches already written. -/
def addMessagesBatches (store : HStore) :
    List (List (String × HDoc)) → HStore
  | [] => store
  | batch :: rest =>
    match kvInsertMulti store batch with
    | some st2 => addMessagesBatches st2 rest
    | none => store

/-- `CouchbaseChatMessageHistory.add_messages` (TTL pass-through not
modelled). -/
def addMessages (session : String) (msgs : List BaseMsg)
    (keys : List String) (tss : List Rat) (store : HStore) : HStore :=
  addMessagesBatches store (chunksOf 100 (buildMessages session msgs keys tss))

/-- `CouchbaseChatMessageHistory.clear`:
`DELETE FROM collection WHERE session_id = $session_id`. -/
def clearSession (session : String) (store : HStore) : HStore :=
  store.filter (fun kv => kv.2.sessionId != session)

/-- The rows of `SELECT message FROM collection WHERE session_id = $session_id
ORDER BY ts ASC`: filter by session, stable-sort by timestamp. -/
def sessionRows (session : String) (store : HStore) : List HDoc :=
  ((store.filter (fun kv => kv.2.sessionId == session)).map
    (fun kv => kv.2)).mergeSort (fun a b => decide (a.ts ≤ b.ts))

/-- The `messages` property: the session's rows in timestamp order, decoded
back to messages. -/
def messagesRead (session : String) (store : HStore) : List BaseMsg :=
  (sessionRows session store).map (fun d => d.message)

theorem chunksOf_flatten {α : Type} (b : Nat) (hb : 0 < b) :
    ∀ (l : List α), (chunksOf b l).flatten = l := by
  have main : ∀ (n : Nat) (l : List α), l.length ≤ n →
      (chunksOf b l).flatten = l := by
    intro n
    induction n with
    | zero =>
      intro l hl
      have h0 : l = [] := List.eq_nil_of_length_eq_zero (by omega)
      rw [h0, chunksOf]
      rfl
    | succ n ih =>
      intro l hl
      match l with
      | [] => rw [chunksOf]; rfl
      | x :: xs =>
        rw [chunksOf, if_neg (by omega), List.flatten_cons]
        have hlen : ((x :: xs).drop b).length ≤ n := by
          simp only [List.length_cons] at hl
          simp only [List.length_drop, List.length_cons]
          omega
        rw [ih ((x :: xs).drop b) hlen]
        exact List.take_append_drop b (x :: xs)
  intro l
  exact main l.length l (le_refl _)

theorem lookup_append_none {α : Type} (k : String) :
    ∀ (l1 l2 : List (String × α)), l1.lookup k = none →
    (l1 ++ l2).lookup k = l2.lookup k := by
  intro l1 l2
  induction l1 with
  | nil => intro _; rfl
  | cons hd tl ih =>
    intro h
    have hne : (k == hd.1) = false := by
      cases hb : (k == hd.1) with
      | false => rfl
      | true => simp [List.lookup, hb] at h
    have htl : tl.lookup k = none := by
      simpa [List.lookup, hne] using h
    simp [List.lookup, hne, ih htl]

theorem lookup_none_of_not_mem_keys {α : Type} (k : String) :
    ∀ (l : List (String × α)), k ∉ l.map (fun kv => kv.1) →
    l.lookup k = none := by
  intro l
  induction l with
  | nil => intro _; rfl
  | cons hd tl ih =>
    intro h
    have h1 : k ≠ hd.1 := fun hc => h (by simp [hc])
    have hne : (k == hd.1) = false := beq_eq_false_iff_ne.mpr h1
    simp only [List.lookup, hne]
    exact ih (fun hc => h (by simp [List.mem_map] at hc ⊢; tauto))

theorem addMessagesBatches_all_fresh :
    ∀ (batches : List (List (String × HDoc))) (store : HStore),
    (batches.flatten.map (fun kv => kv.1)).Nodup →
    (∀ kv ∈ batches.flatten, kvGet store kv.1 = none) →
    addMessagesBatches store batches = store ++ batches.flatten := by
  intro batches
  induction batches with
  | nil => intro store _ _; simp [addMessagesBatches]
  | cons batch rest ih =>
    intro store hnd hfresh
    have hndflat : (batch.map (fun kv => kv.1) ++
        rest.flatten.map (fun kv => kv.1)).Nodup := by
      simpa [List.flatten_cons] using hnd
    have hdisj := (List.nodup_append.mp hndflat).2.2
    have hndrest := (List.nodup_append.mp hndflat).2.1
    have hbatch : batch.all (fun kv => (kvGet store kv.1).isNone) = true := by
      rw [List.all_eq_true]
      intro kv hkv
      rw [hfresh kv (by simp [List.flatten_cons]; exact Or.inl hkv)]
      rfl
    rw [addMessagesBatches]
    unfold kvInsertMulti
    rw [if_pos hbatch]
    show addMessagesBatches (store ++ batch) rest = _
    rw [ih (store ++ batch) hndrest ?fresh2]
    · rw [List.flatten_cons, List.append_assoc]
    case fresh2 =>
      intro kv hkv
      have hsk : kvGet store kv.1 = none :=
        hfresh kv (by
          simp [List.flatten_cons]
          exact Or.inr (List.mem_flatten.mp hkv))
      have hnotb : kv.1 ∉ batch.map (fun kv2 => kv2.1) := by
        intro hc
        exact hdisj hc (List.mem_map.mpr ⟨kv, hkv, rfl⟩)
      unfold kvGet at hsk ⊢
      rw [lookup_append_none kv.1 store batch hsk]
      exact lookup_none_of_not_mem_keys kv.1 batch hnotb

theorem buildMessages_keys (session : String) :
    ∀ (msgs : List BaseMsg) (keys : List String) (tss : List Rat),
    keys.length = msgs.length → tss.length = msgs.length →
    (buildMessages session msgs keys tss).map (fun kv => kv.1) = keys := by
  intro msgs
  induction msgs with
  | nil =>
    intro keys tss hk _
    rw [List.eq_nil_of_length_eq_zero hk]
    rfl
  | cons m rest ih =>
    intro keys tss hk ht
    match keys, tss with
    | [], _ => simp at hk
    | _ :: _, [] => simp at ht
    | k :: ks, t :: ts2 =>
      simp only [buildMessages, List.zip_cons_cons, List.map_cons]
      simp only [List.length_cons] at hk ht
      have := ih ks ts2 (by omega) (by omega)
      unfold buildMessages at this
      rw [this]

theorem buildMessages_session (session : String) (msgs : List BaseMsg)
    (keys : List String) (tss : List Rat) :
    ∀ kv ∈ buildMessages session msgs keys tss, kv.2.sessionId = session := by
  intro kv hkv
  unfold buildMessages at hkv
  obtain ⟨x, _, hx⟩ := List.mem_map.mp hkv
  rw [← hx]

/-- C6: after `add_messages(S, [m1..mn])` — each message with a fresh random
key and its own timestamp, written in batches of 100 — the `messages` property
returns exactly n messages in non-decreasing timestamp order, and after
`clear(S)` it returns the empty list.  (Freshness/distinctness of the drawn
uuid keys and an initially message-free session are the premises.) -/
theorem c6_chat_history_add_read_clear (session : String) (msgs : List BaseMsg)
    (keys : List String) (tss : List Rat) (store : HStore)
    (hk : keys.length = msgs.length) (ht : tss.length = msgs.length)
    (hnd : keys.Nodup) (hfresh : ∀ k ∈ keys, kvGet store k = none)
    (hsess : store.filter (fun kv => kv.2.sessionId == session) = []) :
    (messagesRead session (addMessages session msgs keys tss store)).length =
      msgs.length ∧
    (sessionRows session (addMessages session msgs keys tss store)).Chain'
      (fun a b => a.ts ≤ b.ts) ∧
    messagesRead session
      (clearSession session (addMessages session msgs keys tss store)) = [] := by
  have hkeys := buildMessages_keys session msgs keys tss hk ht
  have hlen_docs : (buildMessages session msgs keys tss).length = msgs.length := by
    have h2 := congrArg List.length hkeys
    rw [List.length_map] at h2
    omega
  have hstore : addMessages session msgs keys tss store =
      store ++ buildMessages session msgs keys tss := by
    unfold addMessages
    have hfl := chunksOf_flatten 100 (by omega)
      (buildMessages session msgs keys tss)
    rw [addMessagesBatches_all_fresh _ store ?nodups ?fr, hfl]
    case nodups =>
      rw [hfl, hkeys]
      exact hnd
    case fr =>
      intro kv hkv
      rw [hfl] at hkv
      have hmem : kv.1 ∈ keys := by
        rw [← hkeys]
        exact List.mem_map.mpr ⟨kv, hkv, rfl⟩
      exact hfresh kv.1 hmem
  have hfilter : (addMessages session msgs keys tss store).filter
      (fun kv => kv.2.sessionId == session) =
      buildMessages session msgs keys tss := by
    rw [hstore, List.filter_append, hsess]
    rw [List.filter_eq_self.mpr ?allp]
    · simp
    case allp =>
      intro kv hkv
      have hse := buildMessages_session session msgs keys tss kv hkv
      simp [hse]
  refine ⟨?lenp, ?sortedp, ?clearp⟩
  case lenp =>
    unfold messagesRead sessionRows
    rw [hfilter]
    rw [List.length_map, (List.mergeSort_perm _ _).length_eq, List.length_map]
    exact hlen_docs
  case sortedp =>
    unfold sessionRows
    have h : (((((addMessages session msgs keys tss store).filter
        (fun kv => kv.2.sessionId == session)).map
          (fun kv => kv.2)).mergeSort
            (fun a b => decide (a.ts ≤ b.ts))).Pairwise
        (fun a b => (fun a b : HDoc => decide (a.ts ≤ b.ts)) a b = true)) :=
      List.sorted_mergeSort
        (fun a b c h1 h2 => by
          simp at h1 h2 ⊢
          exact le_trans h1 h2)
        (fun a b => by
          simp
          exact le_total a.ts b.ts)
        (((addMessages session msgs keys tss store).filter
          (fun kv => kv.2.sessionId == session)).map (fun kv => kv.2))
    have h2 : ((((addMessages session msgs keys tss store).filter
        (fun kv => kv.2.sessionId == session)).map
          (fun kv => kv.2)).mergeSort
            (fun a b => decide (a.ts ≤ b.ts))).Pairwise
        (fun a b : HDoc => a.ts ≤ b.ts) := by
      simpa using h
    exact h2.chain'
  case clearp =>
    unfold messagesRead sessionRows clearSession
    have hnil : ((addMessages session msgs keys tss store).filter
        (fun kv => kv.2.sessionId != session)).filter
        (fun kv => kv.2.sessionId == session) = [] := by
      rw [List.filter_filter]
      apply List.filter_eq_nil_iff.mpr
      intro kv _
      cases hb : kv.2.sessionId == session with
      | true => simp [hb, bne]
      | false => simp [hb]
    rw [hnil]
    simp

/-- Witness for C6: two messages with fresh distinct keys and out-of-order
timestamps in an empty store. -/
theorem c6_chat_history_add_read_clear_witness :
    (messagesRead "s" (addMessages "s" [⟨"m1"⟩, ⟨"m2"⟩] ["k1", "k2"]
      [(2 : Rat), 1] [])).length = 2 ∧
    (sessionRows "s" (addMessages "s" [⟨"m1"⟩, ⟨"m2"⟩] ["k1", "k2"]
      [(2 : Rat), 1] [])).Chain' (fun a b => a.ts ≤ b.ts) ∧
    messagesRead "s" (clearSession "s" (addMessages "s" [⟨"m1"⟩, ⟨"m2"⟩]
      ["k1", "k2"] [(2 : Rat), 1] [])) = [] :=
  c6_chat_history_add_read_clear "s" [⟨"m1"⟩, ⟨"m2"⟩] ["k1", "k2"]
    [(2 : Rat), 1] [] rfl rfl (by decide) (by decide) rfl

/-! ## cache.py: `CouchbaseSemanticCache` -/

/-- `couchbase.search.MatchQuery(llm_string, field="metadata.llm_string")`. -/
structure MatchQ where
  query : String
  field : String
  deriving DecidableEq

/-- Modelled from the spec: `CouchbaseSearchVectorStore.similarity_search_with_score`
is code of this repository that is not under src/ (only the deprecated
`CouchbaseVectorStore` is).  Per spec section 4.5 it embeds the query text and
pairs each returned document with its raw backend-assigned relevance score,
passing the pre-filter through to the backend's search request; the backend
nearest-neighbor search itself is the external search subsystem, a parameter
here. -/
def simSearchWithScore
    (searchBackend : List Int → Nat → MatchQ → List (SearchDoc × Rat))
    (embedQuery : String → List Int) (query : String) (k : Nat)
    (preFilter : MatchQ) : List (SearchDoc × Rat) :=
  searchBackend (embedQuery query) k preFilter

/-- Python truthiness of `self.score_threshold`: `None` and `0.0` are falsy. -/
def scoreThresholdTruthy : Option Rat → Bool
  | none => false
  | some v => v != 0

/-- `CouchbaseSemanticCache.lookup`: k=1 search over the embedded prompt with
a `MatchQuery` pre-filter on `metadata.llm_string`; no match returns `None`;
the threshold guard is `if self.score_threshold:` followed by
`if score < self.score_threshold:`; otherwise the payload is deserialized from
`selected_doc.metadata[RETURN_VAL]` (no surrounding try/except). -/
def semanticLookup
    (searchBackend : List Int → Nat → MatchQ → List (SearchDoc × Rat))
    (embedQuery : String → List Int) (scoreThreshold : Option Rat)
    (prompt llm : String) : Except PErr (Option (List LCVal)) :=
  match simSearchWithScore searchBackend embedQuery prompt 1
      ⟨llm, "metadata.llm_string"⟩ with
  | [] => .ok none
  | (doc, score) :: _ =>
    if scoreThresholdTruthy scoreThreshold then
      if score < scoreThreshold.getD 0 then .ok none
      else
        match pyDictGet doc.metadata "return_val" with
        | .ok v => loadsGenerations v
        | .error e => .error e
    else
      match pyDictGet doc.metadata "return_val" with
      | .ok v => loadsGenerations v
      | .error e => .error e

/-- The spec's description of semantic-cache lookup (section 4.3), for the
refinement comparison: embed the prompt, k=1 nearest-neighbor with the
model-identifier pre-filter; absent when there is no match, or when a
configured (set, i.e. truthy per C10) score threshold exceeds the best score;
otherwise the deserialized payload from the match's metadata. -/
def semanticLookupSpec
    (searchBackend : List Int → Nat → MatchQ → List (SearchDoc × Rat))
    (embedQuery : String → List Int) (scoreThreshold : Option Rat)
    (prompt llm : String) : Except PErr (Option (List LCVal)) :=
  match (searchBackend (embedQuery prompt) 1 ⟨llm, "metadata.llm_string"⟩).head? with
  | none => .ok none
  | some (doc, score) =>
    if scoreThresholdTruthy scoreThreshold ∧ score < scoreThreshold.getD 0 then
      .ok none
    else
      match pyDictGet doc.metadata "return_val" with
      | .ok v => loadsGenerations v
      | .error e => .error e

/-- C7: for every prompt and llm_string, `CouchbaseSemanticCache.lookup`
embeds the prompt, issues a k=1 nearest-neighbor search pre-filtered on the
stored model identifier equalling llm_string, returns absent when there is no
match or when a configured score threshold is set (truthy) and the best score
is below it, and otherwise returns the deserialized generation payload taken
from the match's metadata: the implementation equals the spec-side
description on all inputs. -/
theorem c7_semantic_lookup_refines_spec
    (searchBackend : List Int → Nat → MatchQ → List (SearchDoc × Rat))
    (embedQuery : String → List Int) (scoreThreshold : Option Rat)
    (prompt llm : String) :
    semanticLookup searchBackend embedQuery scoreThreshold prompt llm =
      semanticLookupSpec searchBackend embedQuery scoreThreshold prompt llm := by
  unfold semanticLookup semanticLookupSpec simSearchWithScore
  match hres : searchBackend (embedQuery prompt) 1 ⟨llm, "metadata.llm_string"⟩ with
  | [] => rfl
  | (doc, score) :: rest =>
    simp only [List.head?]
    by_cases htr : scoreThresholdTruthy scoreThreshold = true
    · by_cases hlt : score < scoreThreshold.getD 0
      · rw [if_pos htr, if_pos hlt, if_pos ⟨htr, hlt⟩]
      · rw [if_pos htr, if_neg hlt, if_neg (fun hc => hlt hc.2)]
    · rw [if_neg htr, if_neg (fun hc => htr hc.1)]

/-- C10: with `score_threshold = 0.0` the guard `if self.score_threshold:`
is falsy, so `lookup` performs no threshold filtering at all: the best k=1
match is returned (deserialized) whatever its score — filtering applies only
to a non-zero threshold. -/
theorem c10_zero_threshold_disables_filtering
    (searchBackend : List Int → Nat → MatchQ → List (SearchDoc × Rat))
    (embedQuery : String → List Int) (prompt llm : String)
    (doc : SearchDoc) (score : Rat) (rest : List (SearchDoc × Rat))
    (hres : searchBackend (embedQuery prompt) 1 ⟨llm, "metadata.llm_string"⟩ =
      (doc, score) :: rest) :
    scoreThresholdTruthy (some 0) = false ∧
    semanticLookup searchBackend embedQuery (some 0) prompt llm =
      (match pyDictGet doc.metadata "return_val" with
        | .ok v => loadsGenerations v
        | .error e => .error e) := by
  refine ⟨rfl, ?_⟩
  unfold semanticLookup simSearchWithScore
  rw [hres]
  simp [scoreThresholdTruthy]

/-- Witness for C10: a backend whose best match has a negative score is still
returned when the configured threshold is `0.0`. -/
theorem c10_zero_threshold_disables_filtering_witness :
    semanticLookup
        (fun _ _ _ => [(⟨"d1", Json.jstrRaw "p",
          [("return_val", dumpsGenerations [⟨Json.jstrRaw "g"⟩])]⟩, (-1 : Rat))])
        (fun _ => []) (some 0) "p" "llm" =
      .ok (some [LCVal.gen ⟨Json.jstrRaw "g"⟩]) :=
  (c10_zero_threshold_disables_filtering
      (fun _ _ _ => [(⟨"d1", Json.jstrRaw "p",
        [("return_val", dumpsGenerations [⟨Json.jstrRaw "g"⟩])]⟩, (-1 : Rat))])
      (fun _ => []) "p" "llm"
      ⟨"d1", Json.jstrRaw "p",
        [("return_val", dumpsGenerations [⟨Json.jstrRaw "g"⟩])]⟩ (-1) [] rfl).2

/-! ## utils.py and constructor validation (all four components)

The cluster's administrative state (bucket manager, scope/collection listing,
search-index listings) is the external backend; `ClusterModel` is its
first-order description. -/

/-- The cluster state visible to the validation helpers. -/
structure ClusterModel where
  /-- names of existing buckets (`bucket_manager.get_bucket` succeeds on these). -/
  buckets : List String
  /-- per bucket: `get_all_scopes()`, each scope with its collection names. -/
  bucketScopes : List (String × List (String × List String))
  /-- `cluster.search_indexes().get_all_indexes()`. -/
  clusterSearchIndexes : List String
  /-- per (bucket, scope): `scope.search_indexes().get_all_indexes()`. -/
  scopeSearchIndexes : List ((String × String) × List String)

/-- `utils.check_bucket_exists`: `get_bucket` succeeds iff the bucket exists. -/
def checkBucketExists (c : ClusterModel) (bucket : String) : Bool :=
  c.buckets.contains bucket

/-- `bucket.collections().get_all_scopes()` of the opened bucket. -/
def getAllScopes (c : ClusterModel) (bucket : String) :
    List (String × List String) :=
  (c.bucketScopes.lookup bucket).getD []

/-- `utils.check_scope_and_collection_exists`: early-exit loop over the
scopes; first matching scope name wins; raises naming the missing scope, or
the missing collection within the found scope. -/
def checkScopeAndCollectionExists (scopes : List (String × List String))
    (scopeName collectionName bucketName : String) : Except PErr Bool :=
  match scopes with
  | [] =>
    .error (.valueError ("Scope " ++ scopeName ++ " not found in Couchbase bucket "
      ++ bucketName))
  | (name, cols) :: rest =>
    if name = scopeName then
      if cols.contains collectionName then .ok true
      else
        .error (.valueError ("Collection " ++ collectionName ++
          " not found in scope " ++ scopeName ++ " in Couchbase bucket " ++
          bucketName))
    else checkScopeAndCollectionExists rest scopeName collectionName bucketName

/-- `CouchbaseVectorStore._check_scope_and_collection_exists`: builds the full
scope-to-collections map, then checks the scope, then the collection. -/
def checkScopeAndCollectionExistsVS (scopes : List (String × List String))
    (scopeName collectionName bucketName : String) : Except PErr Bool :=
  if (scopes.map (fun s => s.1)).contains scopeName = false then
    .error (.valueError ("Scope " ++ scopeName ++ " not found in Couchbase bucket "
      ++ bucketName))
  else if ((scopes.lookup scopeName).getD []).contains collectionName = false then
    .error (.valueError ("Collection " ++ collectionName ++
      " not found in scope " ++ scopeName ++ " in Couchbase bucket " ++
      bucketName))
  else .ok true

/-- `CouchbaseVectorStore._check_index_exists`: scoped or cluster search
indexes depending on `scoped_index`. -/
def checkIndexExists (c : ClusterModel) (bucket scope index : String)
    (scopedIndex : Bool) : Except PErr Bool :=
  if scopedIndex then
    if ((c.scopeSearchIndexes.lookup (bucket, scope)).getD []).contains index then
      .ok true
    else
      .error (.valueError ("Index " ++ index ++ " does not exist. " ++
        " Please create the index before searching."))
  else
    if c.clusterSearchIndexes.contains index then .ok true
    else
      .error (.valueError ("Index " ++ index ++ " does not exist. " ++
        " Please create the index before searching."))

/-- `utils.validate_ttl` for a ttl that is a timedelta (the type check is
type-level here); the message's interpolated seconds value is elided. -/
def validateTtl (ttl : Rat) : Except PErr Unit :=
  if ttl ≤ 0 then
    .error (.valueError "ttl must be greater than 0.")
  else .ok ()

/-- The bucket-not-found message of cache.py / chat_message_histories.py. -/
def cacheBucketMsg (bucket : String) : String :=
  "Bucket " ++ bucket ++ " does not exist. Please create the bucket before searching."

/-- The bucket-not-found message of vectorstores.py (note the doubled space of
the source's string concatenation). -/
def vsBucketMsg (bucket : String) : String :=
  "Bucket " ++ bucket ++ " does not exist.  Please create the bucket before searching."

/-- `CouchbaseCache.__init__` validation sequence: bucket existence, then
scope/collection, then TTL.  (The isinstance check is type-level; opening the
bucket/scope/collection handles is lazy and does not fail here.) -/
def initCouchbaseCache (c : ClusterModel) (bucket scope coll : String)
    (ttl : Option Rat) : Except PErr Unit :=
  if checkBucketExists c bucket = false then
    .error (.valueError (cacheBucketMsg bucket))
  else do
    let _ ← checkScopeAndCollectionExists (getAllScopes c bucket) scope coll bucket
    match ttl with
    | none => .ok ()
    | some t => validateTtl t

/-- `CouchbaseChatMessageHistory.__init__` validation sequence: bucket, then
scope/collection, then TTL; the `CREATE INDEX IF NOT EXISTS` afterwards is
inside try/except (logged, never raised) and is a no-op here. -/
def initCouchbaseChatMessageHistory (c : ClusterModel)
    (bucket scope coll : String) (ttl : Option Rat) : Except PErr Unit :=
  if checkBucketExists c bucket = false then
    .error (.valueError (cacheBucketMsg bucket))
  else do
    let _ ← checkScopeAndCollectionExists (getAllScopes c bucket) scope coll bucket
    match ttl with
    | none => .ok ()
    | some t => validateTtl t

/-- `CouchbaseVectorStore.__init__` validation sequence: required-argument
truthiness checks, bucket existence, scope/collection, then index
existence. -/
def initCouchbaseVectorStore (c : ClusterModel) (embeddingPresent : Bool)
    (bucket scope coll index : String) (scopedIndex : Bool) :
    Except PErr Unit :=
  if embeddingPresent = false then
    .error (.valueError "Embeddings instance must be provided.")
  else if bucket = "" then
    .error (.valueError "bucket_name must be provided.")
  else if scope = "" then
    .error (.valueError "scope_name must be provided.")
  else if coll = "" then
    .error (.valueError "collection_name must be provided.")
  else if index = "" then
    .error (.valueError "index_name must be provided.")
  else if checkBucketExists c bucket = false then
    .error (.valueError (vsBucketMsg bucket))
  else do
    let _ ← checkScopeAndCollectionExistsVS (getAllScopes c bucket) scope coll bucket
    let _ ← checkIndexExists c bucket scope index scopedIndex
    .ok ()

/-- Modelled from the spec: `CouchbaseSearchVectorStore.__init__` is code of
this repository that is not under src/ (only the deprecated
`CouchbaseVectorStore` is).  Spec sections 4.1 and 4.5 mandate the same
validation sequence: bucket first, then scope/collection, then the mandatory
search-index existence check — the sequence of `CouchbaseVectorStore`. -/
def initCouchbaseSearchVectorStore (c : ClusterModel) (embeddingPresent : Bool)
    (bucket scope coll index : String) (scopedIndex : Bool) :
    Except PErr Unit :=
  initCouchbaseVectorStore c embeddingPresent bucket scope coll index scopedIndex

/-- `CouchbaseSemanticCache.__init__` validation sequence: bucket, then
scope/collection, then TTL, then the inherited search-vector-store
initialization (which redoes bucket/scope/collection and adds the index
check). -/
def initCouchbaseSemanticCache (c : ClusterModel) (embeddingPresent : Bool)
    (bucket scope coll index : String) (ttl : Option Rat) :
    Except PErr Unit :=
  if checkBucketExists c bucket = false then
    .error (.valueError (cacheBucketMsg bucket))
  else do
    let _ ← checkScopeAndCollectionExists (getAllScopes c bucket) scope coll bucket
    match ttl with
    | none =>
      initCouchbaseSearchVectorStore c embeddingPresent bucket scope coll index true
    | some t => do
      let _ ← validateTtl t
      initCouchbaseSearchVectorStore c embeddingPresent bucket scope coll index true

theorem containsSeq_self_append (sub post : List Char) :
    containsSeq sub (sub ++ post) = true := by
  cases sub with
  | nil =>
    cases post with
    | nil => rfl
    | cons c r => simp [containsSeq, List.isPrefixOf]
  | cons c cs =>
    rw [show (c :: cs) ++ post = c :: (cs ++ post) from rfl, containsSeq]
    have hpre : (c :: cs).isPrefixOf (c :: cs ++ post) = true :=
      List.isPrefixOf_iff_prefix.mpr ⟨post, by simp⟩
    simp [hpre]

theorem containsSeq_append_left (sub : List Char) :
    ∀ (pre s : List Char), containsSeq sub s = true →
    containsSeq sub (pre ++ s) = true := by
  intro pre
  induction pre with
  | nil => intro s h; exact h
  | cons c r ih =>
    intro s h
    rw [show (c :: r) ++ s = c :: (r ++ s) from rfl, containsSeq, ih s h]
    simp

theorem strContainsSub_middle (pre b post : String) :
    strContainsSub (pre ++ b ++ post) b = true := by
  unfold strContainsSub
  have h : (pre ++ b ++ post).toList = pre.toList ++ (b.toList ++ post.toList) := by
    rw [show (pre ++ b ++ post).toList = (pre ++ b).toList ++ post.toList from
      String.data_append _ _]
    rw [show (pre ++ b).toList = pre.toList ++ b.toList from String.data_append _ _]
    rw [List.append_assoc]
  rw [h]
  exact containsSeq_append_left _ _ _ (containsSeq_self_append _ _)


/-- C8: constructing any of the four components against a bucket name that
does not exist raises the not-found `ValueError` naming that bucket (the
spec's NotFoundError), whatever the scope/collection/index arguments — the
bucket check runs before any scope/collection or index validation — and when
the bucket exists, a missing scope is reported before any index check, while
the index check can only fail after bucket and scope/collection validate:
naming errors are reported in the order bucket → scope/collection → index. -/
theorem c8_bucket_check_runs_first (c : ClusterModel)
    (bucket scope coll index : String) (ttl : Option Rat) (scopedIndex : Bool)
    (hb : checkBucketExists c bucket = false) :
    initCouchbaseCache c bucket scope coll ttl =
      .error (.valueError (cacheBucketMsg bucket)) ∧
    initCouchbaseChatMessageHistory c bucket scope coll ttl =
      .error (.valueError (cacheBucketMsg bucket)) ∧
    initCouchbaseSemanticCache c true bucket scope coll index ttl =
      .error (.valueError (cacheBucketMsg bucket)) ∧
    (bucket ≠ "" → scope ≠ "" → coll ≠ "" → index ≠ "" →
      initCouchbaseVectorStore c true bucket scope coll index scopedIndex =
        .error (.valueError (vsBucketMsg bucket))) ∧
    strContainsSub (cacheBucketMsg bucket) bucket = true ∧
    strContainsSub (vsBucketMsg bucket) bucket = true ∧
    (∀ (c2 : ClusterModel), checkBucketExists c2 bucket = true →
      bucket ≠ "" → scope ≠ "" → coll ≠ "" → index ≠ "" →
      ((getAllScopes c2 bucket).map (fun s => s.1)).contains scope = false →
      initCouchbaseVectorStore c2 true bucket scope coll index scopedIndex =
        .error (.valueError ("Scope " ++ scope ++
          " not found in Couchbase bucket " ++ bucket))) ∧
    (∀ (c2 : ClusterModel) (e : PErr), checkBucketExists c2 bucket = true →
      bucket ≠ "" → scope ≠ "" → coll ≠ "" → index ≠ "" →
      ((getAllScopes c2 bucket).map (fun s => s.1)).contains scope = true →
      (((getAllScopes c2 bucket).lookup scope).getD []).contains coll = true →
      checkIndexExists c2 bucket scope index scopedIndex = .error e →
      initCouchbaseVectorStore c2 true bucket scope coll index scopedIndex =
        .error e) := by
  refine ⟨?cache, ?hist, ?sem, ?vs,
    strContainsSub_middle "Bucket " bucket
      " does not exist. Please create the bucket before searching.",
    strContainsSub_middle "Bucket " bucket
      " does not exist.  Please create the bucket before searching.",
    ?scopeord, ?idxord⟩
  case cache =>
    unfold initCouchbaseCache
    rw [if_pos hb]
  case hist =>
    unfold initCouchbaseChatMessageHistory
    rw [if_pos hb]
  case sem =>
    unfold initCouchbaseSemanticCache
    rw [if_pos hb]
  case vs =>
    intro h1 h2 h3 h4
    unfold initCouchbaseVectorStore
    rw [if_neg (by simp), if_neg h1, if_neg h2, if_neg h3, if_neg h4, if_pos hb]
  case scopeord =>
    intro c2 hbex h1 h2 h3 h4 hsc
    have hcheck : checkScopeAndCollectionExistsVS (getAllScopes c2 bucket)
        scope coll bucket = .error (.valueError ("Scope " ++ scope ++
          " not found in Couchbase bucket " ++ bucket)) := by
      unfold checkScopeAndCollectionExistsVS
      rw [if_pos hsc]
    unfold initCouchbaseVectorStore
    rw [if_neg (by simp), if_neg h1, if_neg h2, if_neg h3, if_neg h4,
      if_neg (by simp [hbex]), hcheck]
    rfl
  case idxord =>
    intro c2 e hbex h1 h2 h3 h4 hsc hcol hidx
    have hcheck : checkScopeAndCollectionExistsVS (getAllScopes c2 bucket)
        scope coll bucket = .ok true := by
      unfold checkScopeAndCollectionExistsVS
      rw [if_neg (fun hc => by rw [hsc] at hc; exact Bool.noConfusion hc),
        if_neg (fun hc => by rw [hcol] at hc; exact Bool.noConfusion hc)]
    unfold initCouchbaseVectorStore
    rw [if_neg (by simp), if_neg h1, if_neg h2, if_neg h3, if_neg h4,
      if_neg (by simp [hbex]), hcheck, hidx]
    rfl

/-- Witness for C8: a cluster holding only bucket `"other"`; constructing the
cache and the semantic cache against bucket `"b"` fails with the not-found
error, whose message names `"b"`. -/
theorem c8_bucket_check_runs_first_witness :
    initCouchbaseCache ⟨["other"], [], [], []⟩ "b" "s" "c" none =
      .error (.valueError (cacheBucketMsg "b")) ∧
    initCouchbaseSemanticCache ⟨["other"], [], [], []⟩ true "b" "s" "c" "i" none =
      .error (.valueError (cacheBucketMsg "b")) ∧
    strContainsSub (cacheBucketMsg "b") "b" = true :=
  ⟨(c8_bucket_check_runs_first ⟨["other"], [], [], []⟩ "b" "s" "c" "i" none true
      (by decide)).1,
   (c8_bucket_check_runs_first ⟨["other"], [], [], []⟩ "b" "s" "c" "i" none true
      (by decide)).2.2.1,
   (c8_bucket_check_runs_first ⟨["other"], [], [], []⟩ "b" "s" "c" "i" none true
      (by decide)).2.2.2.2.1⟩
